import Mathlib

/-!
Shallow embedding of `src/packages/scratch-render/src/index.js` (RenderWebGL).

Numbers are modelled as rationals (ℚ); JS `x || d` on numbers is modelled by
`jsOr` (0 is the falsy rational; NaN is not representable in ℚ).

The module `./drawable` (Drawable, its process-wide id registry,
`Drawable.getDrawableByID`, `Drawable.dirtyAllTransforms`, `dispose`,
`updateProperties`, `getShader`, `getUniforms`) is required by `index.js`
but its source is not in the repository snapshot; those parts are modelled
from the spec and marked `Modelled from the spec:` below.  Everything in
`RenderWebGL` itself is translated from the source.
-/

/-- JS `x || d` for numeric values: `0` is falsy (NaN is outside ℚ). -/
def jsOr (x d : ℚ) : ℚ := if x = 0 then d else x

/-- Modelled from the spec: one renderable sprite (`./drawable` is absent from
the snapshot).  "Attributes: id ..., position (x,y), rotation, scale,
visualEffects (named numeric parameters), shaderVariant (determined by which
effects are active — a pure function of the effect set), ... a dirty flag."
The active-effect set is modelled as a `Nat` bitmask. -/
structure Drawable where
  position : ℚ × ℚ
  rotation : ℚ
  scale : ℚ
  effects : Nat
  dirty : Bool
deriving DecidableEq, Repr

/-- Modelled from the spec: "`getShader()`: returns the shader variant that
corresponds to the current active-effects combination — this is a
deterministic, pure mapping."  Shader variants are identified with the
effect bitmask (any injective pure mapping is equivalent for the claims). -/
def Drawable.getShader (d : Drawable) : Nat := d.effects

/-- A partial property update (`updateProperties(partial)`): any subset of
position/rotation/scale/effects may be supplied. -/
structure PropUpdate where
  position : Option (ℚ × ℚ)
  rotation : Option ℚ
  scale : Option ℚ
  effects : Option Nat
deriving DecidableEq, Repr

/-- Modelled from the spec: "`updateProperties(partial)`: merges supplied
fields ... into current state; marks dirty." -/
def Drawable.updateProperties (d : Drawable) (p : PropUpdate) : Drawable :=
  { position := p.position.getD d.position
    rotation := p.rotation.getD d.rotation
    scale := p.scale.getD d.scale
    effects := p.effects.getD d.effects
    dirty := true }

/-- Modelled from the spec: "`create(...)`: allocates a new Drawable with a
fresh unique id, default transform (identity position/rotation/scale, no
effects)". -/
def Drawable.fresh : Drawable :=
  { position := (0, 0), rotation := 0, scale := 1, effects := 0, dirty := true }

/-- The drawable registry: mapping from drawable id to Drawable
(`Drawable.getDrawableByID`'s backing store), as an association list. -/
abbrev Registry := List (Nat × Drawable)

/-- Modelled from the spec: "`get(id)`: returns the Drawable for `id`, or a
not-found signal if absent" (`Drawable.getDrawableByID`). -/
def getDrawableByID (reg : Registry) (id : Nat) : Option Drawable :=
  match reg with
  | [] => none
  | (i, d) :: rest => if i = id then some d else getDrawableByID rest id

/-- Modelled from the spec: "`markAllDirty()`: sets the dirty flag on every
registered Drawable" (`Drawable.dirtyAllTransforms`). -/
def dirtyAllTransforms (reg : Registry) : Registry :=
  reg.map (fun p => (p.1, { p.2 with dirty := true }))

/-- Modelled from the spec: disposal removes the drawable's registry entry —
"destroyed via `destroyDrawable`, which releases any GPU-side resources it
owns ... and removes it from the registry — after destruction its id must
never resolve again."  GPU-resource release has no observable state here. -/
def disposeID (reg : Registry) (id : Nat) : Registry :=
  reg.filter (fun p => p.1 != id)

/-- A 4×4 matrix in twgl's flat column-major layout (`twgl.m4`), entries ℚ. -/
structure M4 where
  e0 : ℚ
  e1 : ℚ
  e2 : ℚ
  e3 : ℚ
  e4 : ℚ
  e5 : ℚ
  e6 : ℚ
  e7 : ℚ
  e8 : ℚ
  e9 : ℚ
  e10 : ℚ
  e11 : ℚ
  e12 : ℚ
  e13 : ℚ
  e14 : ℚ
  e15 : ℚ
deriving DecidableEq, Repr

/-- `twgl.m4.identity()`. -/
def m4identity : M4 :=
  { e0 := 1, e1 := 0, e2 := 0, e3 := 0
    e4 := 0, e5 := 1, e6 := 0, e7 := 0
    e8 := 0, e9 := 0, e10 := 1, e11 := 0
    e12 := 0, e13 := 0, e14 := 0, e15 := 1 }

/-- `twgl.m4.ortho(left, right, bottom, top, near, far)`: the orthographic
projection matrix, twgl's formula over ℚ.  At degenerate bounds the JS
program divides by zero, producing Infinity entries that ℚ cannot
represent (ℚ evaluates `x / 0` to 0 instead); no theorem relies on that
convention — statements about degenerate bounds assert only that the
formula's denominator is zero, never the value of the affected entries. -/
def m4ortho (l r b t n f : ℚ) : M4 :=
  { e0 := 2 / (r - l), e1 := 0, e2 := 0, e3 := 0
    e4 := 0, e5 := 2 / (t - b), e6 := 0, e7 := 0
    e8 := 0, e9 := 0, e10 := 2 / (n - f), e11 := 0
    e12 := (r + l) / (l - r), e13 := (t + b) / (b - t)
    e14 := (f + n) / (n - f), e15 := 1 }

/-- WebGL blend factors appearing in the renderer (plus `srcAlpha`, the
factor simple non-premultiplied alpha blending would use). -/
inductive BlendFactor where
  | one
  | oneMinusSrcAlpha
  | zero
  | srcAlpha
deriving DecidableEq, Repr

/-- The GL-side commands `draw()` can issue, as an observable trace.
`setUniforms id` / `drawQuad id` are the uniform upload and
`twgl.drawBufferInfo` call issued while processing drawable `id`;
`blendFunc` is plain (non-separate) `gl.blendFunc`, present in the
vocabulary so "never uses simple blending" is statable. -/
inductive GLCmd where
  | viewport (w h : ℚ)
  | clearColor (r g b a : ℚ)
  | clear
  | enableBlend
  | blendFuncSeparate (sc dc sa da : BlendFactor)
  | blendFunc (src dst : BlendFactor)
  | useProgram (shader : Nat)
  | setBuffersAndAttributes (shader : Nat)
  | setUniforms (id : Nat)
  | setFudgeUniform
  | drawQuad (id : Nat)
deriving DecidableEq, Repr

/-- The mutable state of one `RenderWebGL` instance (plus the drawable
registry, which in the source is process-wide state of `./drawable`; with a
single renderer the two are equivalent).  `pixelDensity` models the
host-reported `window.devicePixelRatio`. -/
structure RenderState where
  drawables : List Nat
  registry : Registry
  nextId : Nat
  xLeft : ℚ
  xRight : ℚ
  yBottom : ℚ
  yTop : ℚ
  projection : M4
  backgroundColor : ℚ × ℚ × ℚ × ℚ
  canvasWidth : ℚ
  canvasHeight : ℚ
  pixelDensity : ℚ
deriving DecidableEq, Repr

/-- `RenderWebGL.prototype.setBackgroundColor`. -/
def setBackgroundColor (s : RenderState) (red green blue alpha : ℚ) : RenderState :=
  { s with backgroundColor := (red, green, blue, alpha) }

/-- `RenderWebGL.prototype.setStageSize`: stores the four bounds, recomputes
`_projection = twgl.m4.ortho(xLeft, xRight, yBottom, yTop, -1, 1)` and calls
`Drawable.dirtyAllTransforms()`. -/
def setStageSize (s : RenderState) (xLeft xRight yBottom yTop : ℚ) : RenderState :=
  { s with xLeft := xLeft, xRight := xRight, yBottom := yBottom, yTop := yTop
           projection := m4ortho xLeft xRight yBottom yTop (-1) 1
           registry := dirtyAllTransforms s.registry }

/-- `RenderWebGL.prototype.resize`:
`pixelRatio = window.devicePixelRatio || 1; canvas.width = pixelsWide * pixelRatio;`
(and likewise for height). -/
def resize (s : RenderState) (pixelsWide pixelsTall : ℚ) : RenderState :=
  { s with canvasWidth := pixelsWide * jsOr s.pixelDensity 1
           canvasHeight := pixelsTall * jsOr s.pixelDensity 1 }

/-- `RenderWebGL.prototype.getProjectionMatrix`. -/
def getProjectionMatrix (s : RenderState) : M4 := s.projection

/-- `RenderWebGL.prototype.createDrawable`: `new Drawable(...)` (which,
modelled from the spec, registers itself under a fresh id), then
`this._drawables.push(drawableID)`. -/
def createDrawable (s : RenderState) : Nat × RenderState :=
  let id := s.nextId
  (id, { s with registry := s.registry ++ [(id, Drawable.fresh)]
                nextId := id + 1
                drawables := s.drawables ++ [id] })

/-- `RenderWebGL.prototype.destroyDrawable`: `indexOf`, and if found
`Drawable.getDrawableByID(drawableID).dispose()` then `splice(index, 1)`,
returning `true`; else `false`.  If the id is in the list but does not
resolve, the JS dereference of `undefined` throws: modelled as `none`. -/
def destroyDrawable (s : RenderState) (drawableID : Nat) : Option (Bool × RenderState) :=
  if drawableID ∈ s.drawables then
    match getDrawableByID s.registry drawableID with
    | none => none
    | some _ =>
      some (true, { s with registry := disposeID s.registry drawableID
                           drawables := s.drawables.erase drawableID })
  else
    some (false, s)

/-- `RenderWebGL.prototype.updateDrawableProperties`: resolve via
`Drawable.getDrawableByID`; `if (drawable)` forward, else do nothing. -/
def updateDrawableProperties (s : RenderState) (drawableID : Nat) (properties : PropUpdate) :
    RenderState :=
  match getDrawableByID s.registry drawableID with
  | none => s
  | some d =>
      { s with registry :=
          s.registry.map (fun p => if p.1 = drawableID then (p.1, d.updateProperties properties) else p) }

/-- The body of `draw()`'s for-loop over `this._drawables`, accumulating the
trace.  `cur` is the running `currentShader` variable (initially JS `null`,
here `none`); the loop rebinds (`gl.useProgram` +
`twgl.setBuffersAndAttributes`) exactly when `currentShader != newShader`.
An id that does not resolve makes the JS `drawable.getShader()` call throw:
modelled as `none`. -/
def drawLoop (reg : Registry) : List Nat → Option Nat → Option (List GLCmd)
  | [], _ => some []
  | id :: rest, cur =>
    match getDrawableByID reg id with
    | none => none
    | some d =>
      let newShader := d.getShader
      let bindCmds : List GLCmd :=
        if cur = some newShader then []
        else [.useProgram newShader, .setBuffersAndAttributes newShader]
      match drawLoop reg rest (some newShader) with
      | none => none
      | some cmds =>
          some (bindCmds ++ [.setUniforms id, .setFudgeUniform, .drawQuad id] ++ cmds)

/-- The fixed commands `draw()` issues before the loop: viewport, clear with
the background color, `gl.enable(gl.BLEND)` and
`gl.blendFuncSeparate(gl.ONE, gl.ONE_MINUS_SRC_ALPHA, gl.ZERO, gl.ONE)`. -/
def drawPreamble (s : RenderState) : List GLCmd :=
  [.viewport s.canvasWidth s.canvasHeight
   , .clearColor s.backgroundColor.1 s.backgroundColor.2.1 s.backgroundColor.2.2.1
       s.backgroundColor.2.2.2
   , .clear
   , .enableBlend
   , .blendFuncSeparate .one .oneMinusSrcAlpha .zero .one]

/-- `RenderWebGL.prototype.draw`: the full per-frame trace, `none` when a
listed id fails to resolve (the JS loop would throw). -/
def draw (s : RenderState) : Option (List GLCmd) :=
  (drawLoop s.registry s.drawables none).map (fun body => drawPreamble s ++ body)

/-- The `RenderWebGL` constructor: `xLeft || -240`, `xRight || 240`,
`yBottom || -180`, `yTop || 180` fed to `setStageSize`, then `resize` with
`pixelsWide || Math.abs(this._xRight - this._xLeft)` (likewise tall).
`pixelDensity` is the host environment's `window.devicePixelRatio`;
an omitted (undefined) numeric argument is falsy, i.e. behaves as 0 here. -/
def mkRenderer (pixelDensity xLeft xRight yBottom yTop pixelsWide pixelsTall : ℚ) :
    RenderState :=
  let s0 : RenderState :=
    { drawables := [], registry := [], nextId := 0
      xLeft := 0, xRight := 0, yBottom := 0, yTop := 0
      projection := m4identity
      backgroundColor := (0, 0, 0, 0)
      canvasWidth := 0, canvasHeight := 0
      pixelDensity := pixelDensity }
  let s1 := setBackgroundColor s0 1 1 1 1
  let s2 := setStageSize s1 (jsOr xLeft (-240)) (jsOr xRight 240)
      (jsOr yBottom (-180)) (jsOr yTop 180)
  resize s2 (jsOr pixelsWide |s2.xRight - s2.xLeft|)
    (jsOr pixelsTall |s2.yTop - s2.yBottom|)

/-- The renderer as constructed with all optional arguments omitted and a
host pixel density of 1. -/
def initRenderer : RenderState := mkRenderer 1 0 0 0 0 0 0

/-- One externally driven lifecycle operation (claim C1 quantifies over
sequences of these). -/
inductive Op where
  | create
  | destroy (id : Nat)
deriving DecidableEq, Repr

/-- Run one lifecycle operation (`none` if `destroyDrawable` would throw). -/
def runOp (s : RenderState) : Op → Option RenderState
  | .create => some (createDrawable s).2
  | .destroy id => (destroyDrawable s id).map Prod.snd

/-- Run a sequence of lifecycle operations. -/
def runOps (s : RenderState) : List Op → Option RenderState
  | [] => some s
  | op :: ops =>
    match runOp s op with
    | none => none
    | some s2 => runOps s2 ops

/-- The ids present in the registry. -/
def regIDs (reg : Registry) : List Nat := reg.map Prod.fst

/-- The ids drawn by a trace, in order (one per `twgl.drawBufferInfo` call). -/
def drawnOf (cmds : List GLCmd) : List Nat :=
  cmds.filterMap (fun c => match c with | .drawQuad id => some id | _ => none)

/-- The shader programs bound by a trace, in order (one per `gl.useProgram`). -/
def bindsOf (cmds : List GLCmd) : List Nat :=
  cmds.filterMap (fun c => match c with | .useProgram sh => some sh | _ => none)

/-- Whether a trace ever configures simple (non-separate) blending. -/
def hasSimpleBlend (cmds : List GLCmd) : Bool :=
  cmds.any (fun c => match c with | .blendFunc _ _ => true | _ => false)

/-- The shader variant of each listed id, `none` if some id fails to resolve. -/
def shadersOf (reg : Registry) : List Nat → Option (List Nat)
  | [] => some []
  | id :: rest =>
    match getDrawableByID reg id with
    | none => none
    | some d => (shadersOf reg rest).map (fun ss => d.getShader :: ss)

/-- The shader binds the loop performs when the running `currentShader` is
`cur` and the remaining drawables have shader variants `ss`. -/
def bindsFrom : Option Nat → List Nat → List Nat
  | _, [] => []
  | cur, x :: xs => if cur = some x then bindsFrom (some x) xs else x :: bindsFrom (some x) xs

lemma drawnOf_append (u v : List GLCmd) : drawnOf (u ++ v) = drawnOf u ++ drawnOf v := by
  simp [drawnOf]

lemma bindsOf_append (u v : List GLCmd) : bindsOf (u ++ v) = bindsOf u ++ bindsOf v := by
  simp [bindsOf]

lemma hasSimpleBlend_append (u v : List GLCmd) :
    hasSimpleBlend (u ++ v) = (hasSimpleBlend u || hasSimpleBlend v) := by
  simp [hasSimpleBlend]

lemma destutterP_eq_bindsFrom (l : List Nat) : ∀ a : Nat,
    List.destutter' (fun x y => x ≠ y) a l = a :: bindsFrom (some a) l := by
  induction l with
  | nil => intro a; simp [List.destutter', bindsFrom]
  | cons h t ih =>
    intro a
    by_cases hah : a = h
    · subst hah
      simp [List.destutter', bindsFrom, ih]
    · simp [List.destutter', bindsFrom, hah, ih]

lemma bindsFrom_none_eq_destutter (ss : List Nat) :
    bindsFrom none ss = ss.destutter (fun x y => x ≠ y) := by
  cases ss with
  | nil => rfl
  | cons x xs => simp [bindsFrom, List.destutter, destutterP_eq_bindsFrom]

/-- The loop's behaviour when every listed id resolves: it produces a trace
drawing the ids in list order, binding shaders exactly at adjacency changes,
and never touching the blend configuration. -/
lemma drawLoop_spec (reg : Registry) : ∀ (ids ss : List Nat) (cur : Option Nat),
    shadersOf reg ids = some ss →
    ∃ cmds, drawLoop reg ids cur = some cmds ∧
      drawnOf cmds = ids ∧
      bindsOf cmds = bindsFrom cur ss ∧
      hasSimpleBlend cmds = false := by
  intro ids
  induction ids with
  | nil =>
    intro ss cur hss
    refine ⟨[], rfl, rfl, ?_, rfl⟩
    simp [shadersOf] at hss
    subst hss
    rfl
  | cons id rest ih =>
    intro ss cur hss
    simp only [shadersOf] at hss
    cases hd : getDrawableByID reg id with
    | none => rw [hd] at hss; exact absurd hss (by simp)
    | some d =>
      rw [hd] at hss
      cases hrest : shadersOf reg rest with
      | none => rw [hrest] at hss; exact absurd hss (by simp)
      | some ss2 =>
        rw [hrest] at hss
        obtain rfl : d.getShader :: ss2 = ss := by simpa using hss
        obtain ⟨cmds, hloop, hdrawn, hbinds, hblend⟩ :=
          ih ss2 (some d.getShader) hrest
        by_cases hcur : cur = some d.getShader
        · refine ⟨[GLCmd.setUniforms id, GLCmd.setFudgeUniform, GLCmd.drawQuad id] ++ cmds,
            ?_, ?_, ?_, ?_⟩
          · simp [drawLoop, hd, hcur, hloop]
          · rw [drawnOf_append, hdrawn]; rfl
          · rw [bindsOf_append, hbinds]
            subst hcur
            simp [bindsOf, bindsFrom]
          · rw [hasSimpleBlend_append, hblend]
            rfl
        · refine ⟨[GLCmd.useProgram d.getShader, GLCmd.setBuffersAndAttributes d.getShader] ++
            [GLCmd.setUniforms id, GLCmd.setFudgeUniform, GLCmd.drawQuad id] ++ cmds,
            ?_, ?_, ?_, ?_⟩
          · simp [drawLoop, hd, hcur, hloop]
          · rw [drawnOf_append, drawnOf_append, hdrawn]; rfl
          · rw [bindsOf_append, bindsOf_append, hbinds]
            simp [bindsOf, bindsFrom, hcur]
          · rw [hasSimpleBlend_append, hasSimpleBlend_append, hblend]
            rfl

/-- A listed id that does not resolve makes the whole loop fault (the JS
`drawable.getShader()` throws on `undefined`): no trace is produced. -/
lemma drawLoop_unresolved (reg : Registry) (id : Nat) (hid : getDrawableByID reg id = none) :
    ∀ (ids : List Nat) (cur : Option Nat), id ∈ ids → drawLoop reg ids cur = none := by
  intro ids
  induction ids with
  | nil => intro cur h; simp at h
  | cons j rest ih =>
    intro cur h
    rcases List.mem_cons.mp h with hj | hj
    · subst hj
      simp [drawLoop, hid]
    · cases hd : getDrawableByID reg j with
      | none => simp [drawLoop, hd]
      | some d => simp [drawLoop, hd, ih (some d.getShader) hj]

lemma getDrawableByID_isSome_iff (reg : Registry) (id : Nat) :
    (getDrawableByID reg id).isSome = true ↔ id ∈ regIDs reg := by
  induction reg with
  | nil => simp [getDrawableByID, regIDs]
  | cons p rest ih =>
    obtain ⟨i, d⟩ := p
    by_cases hp : i = id
    · simp [getDrawableByID, regIDs, hp]
    · simp only [getDrawableByID, if_neg hp, regIDs, List.map_cons, List.mem_cons, ih]
      constructor
      · exact fun h => Or.inr h
      · rintro (h | h)
        · exact absurd h.symm hp
        · exact h

lemma getDrawableByID_disposeID_self (reg : Registry) (id : Nat) :
    getDrawableByID (disposeID reg id) id = none := by
  induction reg with
  | nil => rfl
  | cons p rest ih =>
    by_cases hp : p.1 = id
    · simpa [disposeID, List.filter_cons, hp] using ih
    · simpa [disposeID, List.filter_cons, hp, getDrawableByID] using ih

lemma regIDs_disposeID (reg : Registry) (id : Nat) :
    regIDs (disposeID reg id) = (regIDs reg).filter (fun i => i != id) := by
  induction reg with
  | nil => rfl
  | cons p rest ih =>
    by_cases hp : p.1 = id
    · simp [disposeID, regIDs, List.filter_cons, hp] at *
      exact ih
    · simp [disposeID, regIDs, List.filter_cons, hp] at *
      exact ih

lemma regIDs_dirtyAllTransforms (reg : Registry) :
    regIDs (dirtyAllTransforms reg) = regIDs reg := by
  simp [regIDs, dirtyAllTransforms]

lemma getDrawableByID_dirtyAllTransforms (reg : Registry) (id : Nat) :
    getDrawableByID (dirtyAllTransforms reg) id =
      (getDrawableByID reg id).map (fun d => { d with dirty := true }) := by
  induction reg with
  | nil => rfl
  | cons p rest ih =>
    by_cases hp : p.1 = id
    · simp [dirtyAllTransforms, getDrawableByID, hp]
    · simpa [dirtyAllTransforms, getDrawableByID, hp] using ih

lemma regIDs_append_single (reg : Registry) (j : Nat) (d : Drawable) :
    regIDs (reg ++ [(j, d)]) = regIDs reg ++ [j] := by
  simp [regIDs]

/-- The inductive invariant tying the draw list to the registry: the list is
duplicate-free, lists exactly the registered ids, and every registered id is
below the fresh-id counter. -/
structure RenderInv (s : RenderState) : Prop where
  nodupList : s.drawables.Nodup
  memIff : ∀ id, id ∈ s.drawables ↔ id ∈ regIDs s.registry
  fresh : ∀ id ∈ regIDs s.registry, id < s.nextId

lemma inv_initRenderer : RenderInv initRenderer := by
  refine ⟨?_, ?_, ?_⟩ <;>
    simp [initRenderer, mkRenderer, setBackgroundColor, setStageSize, resize,
      dirtyAllTransforms, regIDs]

lemma inv_createDrawable (s : RenderState) (hs : RenderInv s) :
    RenderInv (createDrawable s).2 := by
  have hnew : s.nextId ∉ s.drawables := by
    intro hmem
    have := hs.fresh s.nextId ((hs.memIff s.nextId).mp hmem)
    omega
  refine ⟨?_, ?_, ?_⟩
  · simp only [createDrawable]
    rw [List.nodup_append]
    refine ⟨hs.nodupList, List.nodup_singleton _, ?_⟩
    intro a ha hb
    rw [List.mem_singleton] at hb
    exact hnew (hb ▸ ha)
  · intro id
    simp only [createDrawable, regIDs_append_single, List.mem_append,
      List.mem_singleton]
    exact or_congr (hs.memIff id) Iff.rfl
  · intro id hid
    simp only [createDrawable, regIDs_append_single, List.mem_append,
      List.mem_singleton] at hid
    simp only [createDrawable]
    rcases hid with hid | hid
    · have := hs.fresh id hid
      omega
    · omega

lemma inv_destroyDrawable (s : RenderState) (hs : RenderInv s) (id : Nat) :
    ∃ b s2, destroyDrawable s id = some (b, s2) ∧ RenderInv s2 := by
  by_cases hmem : id ∈ s.drawables
  · have hreg : id ∈ regIDs s.registry := (hs.memIff id).mp hmem
    have hsome : (getDrawableByID s.registry id).isSome = true :=
      (getDrawableByID_isSome_iff s.registry id).mpr hreg
    obtain ⟨d, hd⟩ := Option.isSome_iff_exists.mp hsome
    refine ⟨true,
      { s with registry := disposeID s.registry id
               drawables := s.drawables.erase id }, ?_, ?_, ?_, ?_⟩
    · simp [destroyDrawable, hmem, hd]
    · exact hs.nodupList.erase id
    · intro j
      show j ∈ s.drawables.erase id ↔ j ∈ regIDs (disposeID s.registry id)
      rw [hs.nodupList.mem_erase_iff]
      simp only [regIDs_disposeID, List.mem_filter, bne_iff_ne, ne_eq,
        decide_eq_true_eq]
      rw [hs.memIff j]
      tauto
    · intro j hj
      show j < s.nextId
      simp only [regIDs_disposeID, List.mem_filter] at hj
      exact hs.fresh j hj.1
  · exact ⟨false, s, by simp [destroyDrawable, hmem], hs⟩

lemma inv_runOps (ops : List Op) : ∀ (s : RenderState), RenderInv s →
    ∃ s2, runOps s ops = some s2 ∧ RenderInv s2 := by
  induction ops with
  | nil => intro s hs; exact ⟨s, rfl, hs⟩
  | cons op ops ih =>
    intro s hs
    cases op with
    | create =>
      obtain ⟨s2, h2, hinv2⟩ := ih (createDrawable s).2 (inv_createDrawable s hs)
      exact ⟨s2, by simpa [runOps, runOp] using h2, hinv2⟩
    | destroy id =>
      obtain ⟨b, s1, h1, hinv1⟩ := inv_destroyDrawable s hs id
      obtain ⟨s2, h2, hinv2⟩ := ih s1 hinv1
      exact ⟨s2, by simp [runOps, runOp, h1, h2], hinv2⟩

/-- The empty partial property update (`updateProperties({})`). -/
def noUpdate : PropUpdate :=
  { position := none, rotation := none, scale := none, effects := none }

/-- A property update activating effect bit 1 only. -/
def effectOneUpdate : PropUpdate :=
  { position := none, rotation := none, scale := none, effects := some 1 }

/-- A fresh renderer after one `createDrawable()` (draw list `[0]`). -/
def oneDrawableState : RenderState := (createDrawable initRenderer).2

/-- A fresh renderer after four `createDrawable()` calls and
`updateDrawableProperties(2, {effect bit 1})`: the draw list `[0, 1, 2, 3]`
carries shader variants `[0, 0, 1, 0]` (the X, X, Y, X pattern). -/
def stateXXYX : RenderState :=
  let s1 := (createDrawable initRenderer).2
  let s2 := (createDrawable s1).2
  let s3 := (createDrawable s2).2
  let s4 := (createDrawable s3).2
  updateDrawableProperties s4 2 effectOneUpdate

/-- A directly constructed state whose draw list holds an id that is absent
from the registry — the hypothetical situation claim C5 quantifies over
(unreachable through the renderer's own API, see the C1 invariant). -/
def badState : RenderState :=
  { drawables := [0], registry := [], nextId := 1
    xLeft := -240, xRight := 240, yBottom := -180, yTop := 180
    projection := m4ortho (-240) 240 (-180) 180 (-1) 1
    backgroundColor := (1, 1, 1, 1)
    canvasWidth := 480, canvasHeight := 360, pixelDensity := 1 }

/-- A renderer constructed under a host device pixel density of 2. -/
def densityTwoRenderer : RenderState := mkRenderer 2 0 0 0 0 0 0

lemma jsOr_ne_zero (x d : ℚ) (hd : d ≠ 0) : jsOr x d ≠ 0 := by
  by_cases hx : x = 0
  · simp [jsOr, hx, hd]
  · simp [jsOr, hx]

/-- C1: for every sequence of `createDrawable`/`destroyDrawable` calls from a
freshly constructed renderer, no call faults, the draw list has no duplicate
ids, and it contains exactly the ids that resolve in the registry. -/
theorem drawList_matches_registry (ops : List Op) :
    ∃ s, runOps initRenderer ops = some s ∧
      s.drawables.Nodup ∧
      ∀ id, (id ∈ s.drawables ↔ (getDrawableByID s.registry id).isSome = true) := by
  obtain ⟨s, hs, hinv⟩ := inv_runOps ops initRenderer inv_initRenderer
  exact ⟨s, hs, hinv.nodupList,
    fun id => (hinv.memIff id).trans (getDrawableByID_isSome_iff s.registry id).symm⟩

/-- C2: `createDrawable` appends the new id to the end of the draw list, and
`draw()` issues its per-drawable draw calls exactly in draw-list order
(first-inserted id drawn first, i.e. furthest back). -/
theorem createDrawable_appends_and_draw_follows_list (s : RenderState) (ss : List Nat)
    (h : shadersOf s.registry s.drawables = some ss) :
    (createDrawable s).2.drawables = s.drawables ++ [(createDrawable s).1] ∧
    ∃ cmds, draw s = some cmds ∧ drawnOf cmds = s.drawables := by
  obtain ⟨body, hloop, hdrawn, hbinds, hblend⟩ :=
    drawLoop_spec s.registry s.drawables ss none h
  refine ⟨rfl, drawPreamble s ++ body, ?_, ?_⟩
  · simp [draw, hloop]
  · rw [drawnOf_append, hdrawn]
    rfl

theorem createDrawable_appends_and_draw_follows_list_witness :
    (createDrawable stateXXYX).2.drawables =
      stateXXYX.drawables ++ [(createDrawable stateXXYX).1] ∧
    ∃ cmds, draw stateXXYX = some cmds ∧ drawnOf cmds = stateXXYX.drawables :=
  createDrawable_appends_and_draw_follows_list stateXXYX [0, 0, 1, 0] (by decide)

/-- C3: the shader program (plus vertex-attribute bindings) is rebound exactly
when a drawable's shader variant differs from its predecessor's, always for
the first drawable, and drawables are never reordered: the sequence of binds
is the adjacent-deduplication (`List.destutter`) of the draw list's shader
sequence. -/
theorem draw_binds_at_adjacency_changes (s : RenderState) (ss : List Nat)
    (h : shadersOf s.registry s.drawables = some ss) :
    ∃ cmds, draw s = some cmds ∧
      bindsOf cmds = ss.destutter (fun a b => a ≠ b) := by
  obtain ⟨body, hloop, hdrawn, hbinds, hblend⟩ :=
    drawLoop_spec s.registry s.drawables ss none h
  refine ⟨drawPreamble s ++ body, by simp [draw, hloop], ?_⟩
  rw [bindsOf_append, hbinds, bindsFrom_none_eq_destutter]
  rfl

theorem draw_binds_at_adjacency_changes_witness :
    ∃ cmds, draw stateXXYX = some cmds ∧ bindsOf cmds = [0, 1, 0] := by
  obtain ⟨cmds, h1, h2⟩ :=
    draw_binds_at_adjacency_changes stateXXYX [0, 0, 1, 0] (by decide)
  refine ⟨cmds, h1, ?_⟩
  rw [h2]
  decide

/-- C4: `destroyDrawable(id)` returns `true` iff `id` was present in the draw
list; on success the id no longer resolves in the registry and is removed
from the list, and a second call with the same id returns `false` and leaves
the state unchanged. -/
theorem destroyDrawable_iff_listed (s : RenderState) (id : Nat)
    (hnd : s.drawables.Nodup)
    (hres : ∀ i ∈ s.drawables, (getDrawableByID s.registry i).isSome = true) :
    (id ∈ s.drawables →
      ∃ s2, destroyDrawable s id = some (true, s2) ∧
        getDrawableByID s2.registry id = none ∧
        s2.drawables = s.drawables.erase id ∧
        destroyDrawable s2 id = some (false, s2)) ∧
    (id ∉ s.drawables → destroyDrawable s id = some (false, s)) := by
  constructor
  · intro hmem
    obtain ⟨d, hd⟩ := Option.isSome_iff_exists.mp (hres id hmem)
    refine ⟨{ s with registry := disposeID s.registry id
                     drawables := s.drawables.erase id }, ?_, ?_, rfl, ?_⟩
    · simp [destroyDrawable, hmem, hd]
    · exact getDrawableByID_disposeID_self s.registry id
    · have hnotmem : id ∉ s.drawables.erase id := by
        rw [hnd.mem_erase_iff]
        simp
      simp [destroyDrawable, hnotmem]
  · intro hmem
    simp [destroyDrawable, hmem]

theorem destroyDrawable_iff_listed_witness :
    ∃ s2, destroyDrawable oneDrawableState 0 = some (true, s2) ∧
      destroyDrawable s2 0 = some (false, s2) := by
  obtain ⟨h1, h2⟩ :=
    destroyDrawable_iff_listed oneDrawableState 0 (by decide) (by decide)
  obtain ⟨s2, ha, hb, hc, hd⟩ := h1 (by decide)
  exact ⟨s2, ha, hd⟩

/-- C5, counterexample: with id `0` listed but not resolving, `draw()` does
not skip the entry — the loop dereferences the failed lookup and faults,
producing no trace at all (a skipping draw would return the preamble-only
trace `some (drawPreamble badState)`). -/
theorem draw_faults_on_unresolved_id :
    draw badState = none ∧ ¬ draw badState = some (drawPreamble badState) := by
  decide

/-- C5 as amended: on an id that does not resolve,
`updateDrawableProperties` is a silent no-op, but `draw()` does not skip an
unresolved draw-list entry — it faults, producing no trace. -/
theorem unresolved_update_noop_draw_faults (s : RenderState) (id : Nat)
    (p : PropUpdate) (h : getDrawableByID s.registry id = none) :
    updateDrawableProperties s id p = s ∧
    (id ∈ s.drawables → draw s = none) := by
  constructor
  · simp [updateDrawableProperties, h]
  · intro hmem
    simp [draw, drawLoop_unresolved s.registry id h s.drawables none hmem]

theorem unresolved_update_noop_draw_faults_witness :
    updateDrawableProperties badState 0 noUpdate = badState ∧
    (0 ∈ badState.drawables → draw badState = none) :=
  unresolved_update_noop_draw_faults badState 0 noUpdate (by decide)

/-- C6: `setStageSize` stores the four bounds, recomputes the projection as
the orthographic matrix for those bounds with near = -1 and far = 1 (so
`getProjectionMatrix` returns it), and dirties every registered drawable
while keeping the registered ids unchanged. -/
theorem setStageSize_stores_projects_dirties (s : RenderState) (l r b t : ℚ) :
    (setStageSize s l r b t).xLeft = l ∧
    (setStageSize s l r b t).xRight = r ∧
    (setStageSize s l r b t).yBottom = b ∧
    (setStageSize s l r b t).yTop = t ∧
    getProjectionMatrix (setStageSize s l r b t) = m4ortho l r b t (-1) 1 ∧
    regIDs (setStageSize s l r b t).registry = regIDs s.registry ∧
    (∀ id d, getDrawableByID (setStageSize s l r b t).registry id = some d →
      d.dirty = true) := by
  refine ⟨rfl, rfl, rfl, rfl, rfl, regIDs_dirtyAllTransforms s.registry, ?_⟩
  intro id d hd
  rw [show (setStageSize s l r b t).registry = dirtyAllTransforms s.registry from rfl,
      getDrawableByID_dirtyAllTransforms] at hd
  cases hod : getDrawableByID s.registry id with
  | none => rw [hod] at hd; simp at hd
  | some d0 =>
    rw [hod] at hd
    have h2 : ({ d0 with dirty := true } : Drawable) = d := Option.some.inj hd
    rw [← h2]

theorem setStageSize_stores_projects_dirties_witness :
    getProjectionMatrix (setStageSize oneDrawableState 1 2 3 4) =
      m4ortho 1 2 3 4 (-1) 1 ∧
    (getDrawableByID (setStageSize oneDrawableState 1 2 3 4).registry 0).map
      Drawable.dirty = some true := by
  have h := setStageSize_stores_projects_dirties oneDrawableState 1 2 3 4
  refine ⟨h.2.2.2.2.1, ?_⟩
  cases hd : getDrawableByID (setStageSize oneDrawableState 1 2 3 4).registry 0 with
  | none => exact absurd hd (by decide)
  | some d => simp [h.2.2.2.2.2.2 0 d hd]

/-- C7, counterexample: `setStageSize` with zero-width bounds stores them
exactly as given — the stored extent is 0, not clamped to any positive
epsilon — and the projection is recomputed by the orthographic formula on
those unclamped bounds, whose width denominator `right - left` is exactly
zero: the division by zero the claim says is avoided does occur. -/
theorem setStageSize_degenerate_bounds_not_clamped :
    (setStageSize initRenderer 5 5 0 10).xLeft = 5 ∧
    (setStageSize initRenderer 5 5 0 10).xRight = 5 ∧
    (setStageSize initRenderer 5 5 0 10).xRight -
        (setStageSize initRenderer 5 5 0 10).xLeft = 0 ∧
    (setStageSize initRenderer 5 5 0 10).projection = m4ortho 5 5 0 10 (-1) 1 := by
  refine ⟨rfl, rfl, ?_, rfl⟩
  show (5 : ℚ) - 5 = 0
  norm_num

/-- C7 as amended: `setStageSize` accepts every bounds input without error
(it is a total function) and stores the bounds exactly as given, with no
epsilon clamping; the projection is recomputed by the orthographic formula
on those unclamped bounds, so degenerate equal left/right bounds feed the
formula a width denominator of exactly zero. -/
theorem setStageSize_accepts_degenerate_unclamped (s : RenderState) (l r b t : ℚ)
    (hdeg : r = l) :
    (setStageSize s l r b t).xLeft = l ∧
    (setStageSize s l r b t).xRight = r ∧
    (setStageSize s l r b t).yBottom = b ∧
    (setStageSize s l r b t).yTop = t ∧
    (setStageSize s l r b t).projection = m4ortho l r b t (-1) 1 ∧
    (setStageSize s l r b t).xRight - (setStageSize s l r b t).xLeft = 0 := by
  refine ⟨rfl, rfl, rfl, rfl, rfl, ?_⟩
  show r - l = 0
  rw [hdeg]
  ring

theorem setStageSize_accepts_degenerate_unclamped_witness :
    (setStageSize initRenderer 7 7 0 10).xLeft = 7 ∧
    (setStageSize initRenderer 7 7 0 10).xRight = 7 ∧
    (setStageSize initRenderer 7 7 0 10).yBottom = 0 ∧
    (setStageSize initRenderer 7 7 0 10).yTop = 10 ∧
    (setStageSize initRenderer 7 7 0 10).projection = m4ortho 7 7 0 10 (-1) 1 ∧
    (setStageSize initRenderer 7 7 0 10).xRight -
        (setStageSize initRenderer 7 7 0 10).xLeft = 0 :=
  setStageSize_accepts_degenerate_unclamped initRenderer 7 7 0 10 rfl

/-- C8: `resize` sets the backing-store dimensions to the requested logical
dimensions multiplied by the host-reported device pixel density; in
particular `resize(480, 360)` under density 2 yields 960 × 720. -/
theorem resize_multiplies_by_density (s : RenderState) (w h : ℚ)
    (hd : s.pixelDensity ≠ 0) :
    (resize s w h).canvasWidth = w * s.pixelDensity ∧
    (resize s w h).canvasHeight = h * s.pixelDensity ∧
    (s.pixelDensity = 2 →
      (resize s 480 360).canvasWidth = 960 ∧
      (resize s 480 360).canvasHeight = 720) := by
  have hj : jsOr s.pixelDensity 1 = s.pixelDensity := by simp [jsOr, hd]
  refine ⟨?_, ?_, ?_⟩
  · show w * jsOr s.pixelDensity 1 = w * s.pixelDensity
    rw [hj]
  · show h * jsOr s.pixelDensity 1 = h * s.pixelDensity
    rw [hj]
  · intro h2
    constructor
    · show (480 : ℚ) * jsOr s.pixelDensity 1 = 960
      rw [hj, h2]
      norm_num
    · show (360 : ℚ) * jsOr s.pixelDensity 1 = 720
      rw [hj, h2]
      norm_num

theorem resize_multiplies_by_density_witness :
    (resize densityTwoRenderer 480 360).canvasWidth = 960 ∧
    (resize densityTwoRenderer 480 360).canvasHeight = 720 :=
  (resize_multiplies_by_density densityTwoRenderer 480 360 (by decide)).2.2
    (by decide)

/-- C9: every frame's trace starts with viewport/clear followed by
`gl.enable(BLEND)` and the separate blend configuration
`blendFuncSeparate(ONE, ONE_MINUS_SRC_ALPHA, ZERO, ONE)`, all before any
per-drawable draw call (every `drawQuad` is in the loop body that follows),
and simple non-separate `blendFunc` is never issued. -/
theorem draw_blend_separate_before_quads (s : RenderState) (ss : List Nat)
    (h : shadersOf s.registry s.drawables = some ss) :
    ∃ body, draw s = some
        ([GLCmd.viewport s.canvasWidth s.canvasHeight,
          GLCmd.clearColor s.backgroundColor.1 s.backgroundColor.2.1
            s.backgroundColor.2.2.1 s.backgroundColor.2.2.2,
          GLCmd.clear, GLCmd.enableBlend,
          GLCmd.blendFuncSeparate .one .oneMinusSrcAlpha .zero .one] ++ body) ∧
      hasSimpleBlend body = false ∧
      drawnOf body = s.drawables := by
  obtain ⟨body, hloop, hdrawn, hbinds, hblend⟩ :=
    drawLoop_spec s.registry s.drawables ss none h
  exact ⟨body, by simp [draw, hloop, drawPreamble], hblend, hdrawn⟩

theorem draw_blend_separate_before_quads_witness :
    ∃ body, draw stateXXYX = some
        ([GLCmd.viewport stateXXYX.canvasWidth stateXXYX.canvasHeight,
          GLCmd.clearColor stateXXYX.backgroundColor.1
            stateXXYX.backgroundColor.2.1 stateXXYX.backgroundColor.2.2.1
            stateXXYX.backgroundColor.2.2.2,
          GLCmd.clear, GLCmd.enableBlend,
          GLCmd.blendFuncSeparate .one .oneMinusSrcAlpha .zero .one] ++ body) ∧
      hasSimpleBlend body = false ∧
      drawnOf body = stateXXYX.drawables :=
  draw_blend_separate_before_quads stateXXYX [0, 0, 1, 0] (by decide)

/-- C10, counterexample: although falsy constructor arguments are replaced by
defaults, the pixel-dimension default is the absolute bound difference, which
is 0 when the (truthy) horizontal bounds coincide — so a renderer with a
backing-store pixel dimension of exactly 0 is constructible. -/
theorem mkRenderer_zero_pixel_dimension :
    (mkRenderer 1 240 240 0 0 0 0).canvasWidth = 0 := by
  show jsOr 0 |jsOr 240 240 - jsOr 240 (-240)| * jsOr 1 1 = 0
  norm_num [jsOr]

/-- C10 as amended: every falsy (0 or omitted) stage-bound or pixel-dimension
argument is replaced by its default, and since all bound defaults are
nonzero no renderer can have a stage bound of exactly 0; but the pixel
dimension defaults to the absolute difference of the (defaulted) bounds,
which is 0 when they coincide, so a pixel dimension of exactly 0 is
possible. -/
theorem mkRenderer_defaults_falsy (pd l r b t w h : ℚ) :
    (mkRenderer pd l r b t w h).xLeft = jsOr l (-240) ∧
    (mkRenderer pd l r b t w h).xRight = jsOr r 240 ∧
    (mkRenderer pd l r b t w h).yBottom = jsOr b (-180) ∧
    (mkRenderer pd l r b t w h).yTop = jsOr t 180 ∧
    (mkRenderer pd l r b t w h).xLeft ≠ 0 ∧
    (mkRenderer pd l r b t w h).xRight ≠ 0 ∧
    (mkRenderer pd l r b t w h).yBottom ≠ 0 ∧
    (mkRenderer pd l r b t w h).yTop ≠ 0 ∧
    (mkRenderer 1 240 240 0 0 0 0).canvasWidth = 0 := by
  refine ⟨rfl, rfl, rfl, rfl, ?_, ?_, ?_, ?_, ?_⟩
  rotate_right
  · show jsOr 0 |jsOr 240 240 - jsOr 240 (-240)| * jsOr 1 1 = 0
    norm_num [jsOr]
  · exact jsOr_ne_zero l (-240) (by norm_num)
  · exact jsOr_ne_zero r 240 (by norm_num)
  · exact jsOr_ne_zero b (-180) (by norm_num)
  · exact jsOr_ne_zero t 180 (by norm_num)
